import Mathlib

/-!
Verification development for the news aggregator (src/news_aggregator.py).
The Python code is shallowly embedded: pure helper methods of the
NewsAggregator class become Lean functions on String / List Char; the
network, the HTML parser (BeautifulSoup) and the feed parser (feedparser)
are external collaborators and are modelled by explicit inputs (a function
from URL to an optional parsed document, record fields holding the results
of the structural queries the code performs, feed entries as records of
the fields the code reads).  Wall-clock time (datetime.now) is modelled by
a clock indexed by the number of now() calls made so far, threaded through
the code in program order.  datetime values are modelled as integer Unix
timestamps in seconds; strftime with format %Y-%m-%d becomes an explicit
civil-calendar rendering of the timestamp.
-/

namespace NewsAgg

set_option maxRecDepth 4000

/-! ### Python whitespace and basic text helpers -/

/-- Whitespace characters recognised by Python str.split and by the regex
class backslash-s (ASCII part; the unicode extras play no role in any
claim). -/
def isPySpace (c : Char) : Bool :=
  c == ' ' || c == '\t' || c == '\n' || c == '\r' || c == '\x0b' || c == '\x0c'

/-- Accumulator-based splitter: text.split() in Python, splitting on runs
of whitespace and dropping empty pieces.  acc holds the current word in
reverse. -/
def splitWordsAux : List Char → List Char → List (List Char)
  | [], acc => if acc = [] then [] else [acc.reverse]
  | c :: cs, acc =>
    if isPySpace c then
      if acc = [] then splitWordsAux cs [] else acc.reverse :: splitWordsAux cs []
    else
      splitWordsAux cs (c :: acc)

/-- Python text.split() on a character list. -/
def splitWords (l : List Char) : List (List Char) := splitWordsAux l []

/-- The single-space join used by the code: sep.join(words) with sep a
single space. -/
def joinWords : List (List Char) → List Char
  | [] => []
  | [w] => w
  | w :: ws => w ++ ' ' :: joinWords ws

/-- Python str.strip() on a character list. -/
def pyStripChars (l : List Char) : List Char :=
  ((l.dropWhile isPySpace).reverse.dropWhile isPySpace).reverse

/-- NewsAggregator._clean_text: join(text.split()) with single spaces,
then strip, guarded by the truthiness test on text. -/
def clean_text (s : String) : String :=
  if s = "" then "" else String.mk (pyStripChars (joinWords (splitWords s.data)))

/-- Character-level model of BeautifulSoup(html).get_text(): drops every
tag (the spans between an opening angle bracket and the next closing one).
BeautifulSoup is an external collaborator; no claim depends on finer
details of its text extraction. -/
def stripTagsAux : List Char → Bool → List Char
  | [], _ => []
  | c :: cs, true => if c = '>' then stripTagsAux cs false else stripTagsAux cs true
  | c :: cs, false => if c = '<' then stripTagsAux cs true else c :: stripTagsAux cs false

/-- NewsAggregator._clean_html: parse, take visible text, clean. -/
def clean_html (s : String) : String :=
  if s = "" then "" else clean_text (String.mk (stripTagsAux s.data false))

/-! ### Substring tests and URL screening -/

/-- Python str.lower (ASCII model, via Char.toLower). -/
def pyLower (s : String) : String := String.mk (s.data.map Char.toLower)

/-- needle in hay, on character lists: some suffix of hay starts with
needle. -/
def containsSub (needle : List Char) : List Char → Bool
  | [] => needle.isPrefixOf []
  | c :: t => needle.isPrefixOf (c :: t) || containsSub needle t

/-- Python needle in hay for strings. -/
def strContains (hay needle : String) : Bool := containsSub needle.data hay.data

/-- Python str.startswith for strings. -/
def startswith (s pre : String) : Bool := pre.data.isPrefixOf s.data

/-- The excluded-scheme substrings tested by _validate_url and
_fix_relative_url (note: no whatsapp entry in the source at lines 452 and
458). -/
def validateSkips : List String := ["mailto:", "tel:", "javascript:"]

/-- The excluded-scheme substrings tested by _create_article (line 180 of
the source; this list does include whatsapp). -/
def createSkips : List String := ["mailto:", "tel:", "javascript:", "whatsapp:"]

/-- any(skip in url.lower() for skip in skips). -/
def hasAnySkip (skips : List String) (url : String) : Bool :=
  skips.any (fun s => strContains (pyLower url) s)

/-- NewsAggregator._validate_url (the source_name argument is unused by
the source as well). -/
def validate_url (url : String) (source_name : String) : String :=
  if url = "" ∨ startswith url "http" = false ∨ hasAnySkip validateSkips url = true
  then "" else url

/-- Marker split at the first scheme separator, for the urljoin model. -/
def splitMarker : List Char → Option (List Char × List Char)
  | [] => none
  | c :: t =>
    if [':', '/', '/'].isPrefixOf (c :: t) then some ([], (c :: t).drop 3)
    else (splitMarker t).map (fun p => (c :: p.1, p.2))

/-- scheme://host part of a URL, for the urljoin model. -/
def schemeHost (base : String) : String :=
  match splitMarker base.data with
  | some (sch, rest) =>
    String.mk (sch ++ [':', '/', '/'] ++ rest.takeWhile (fun c => c != '/'))
  | none => ""

/-- base up to and including its last slash, for the urljoin model. -/
def upToLastSlash (l : List Char) : List Char :=
  (l.reverse.dropWhile (fun c => c != '/')).reverse

/-- Model of urllib.parse.urljoin (Python standard library, an external
collaborator): absolute references pass through, root-relative references
attach to the scheme and host of base, other references replace the last
segment of base.  No claim in this file depends on its output. -/
def urljoinModel (base url : String) : String :=
  if url = "" then base
  else if strContains url "://" = true then url
  else if startswith url "/" = true then schemeHost base ++ url
  else String.mk (upToLastSlash base.data) ++ url

/-- NewsAggregator._fix_relative_url. -/
def fix_relative_url (url : String) (base_url : String) : String :=
  if url = "" then ""
  else if hasAnySkip validateSkips url = true then ""
  else if startswith url "http" = true then url
  else urljoinModel base_url url

/-! ### Date extraction (_extract_date_from_text) -/

/-- Take exactly n decimal digits from the front of a list, returning the
digits and the remainder.  Models a fixed-count backslash-d quantifier. -/
def takeDigits : Nat → List Char → Option (List Char × List Char)
  | 0, l => some ([], l)
  | _ + 1, [] => none
  | n + 1, c :: t =>
    if c.isDigit then (takeDigits n t).map (fun p => (c :: p.1, p.2)) else none

/-- Match of the ISO pattern (four digits, dash, two digits, dash, two
digits) anchored at the start of the list; returns the matched span. -/
def matchIsoAt (l : List Char) : Option (List Char) :=
  match takeDigits 4 l with
  | none => none
  | some (d4, r1) =>
    match r1 with
    | '-' :: r2 =>
      match takeDigits 2 r2 with
      | none => none
      | some (m2, r3) =>
        match r3 with
        | '-' :: r4 =>
          match takeDigits 2 r4 with
          | none => none
          | some (d2, _) => some (d4 ++ '-' :: m2 ++ '-' :: d2)
        | _ => none
    | _ => none

/-- re.search for the ISO pattern: earliest starting position wins. -/
def isoSearch : List Char → Option (List Char)
  | [] => none
  | c :: t =>
    match matchIsoAt (c :: t) with
    | some m => some m
    | none => isoSearch t

/-- Case-insensitive prefix test, for the case-insensitive month
alternation of the long-form pattern. -/
def ciStarts : List Char → List Char → Bool
  | [], _ => true
  | _ :: _, [] => false
  | p :: ps, c :: cs => p.toLower == c.toLower && ciStarts ps cs

/-- The month alternation of the long-form regex, in source order, with
the month number each name denotes. -/
def monthTable : List (String × Nat) :=
  [("January", 1), ("February", 2), ("March", 3), ("April", 4), ("May", 5),
   ("June", 6), ("July", 7), ("August", 8), ("September", 9), ("October", 10),
   ("November", 11), ("December", 12)]

/-- Numeric value of a digit character. -/
def digitVal (c : Char) : Nat := c.toNat - 48

/-- Value of a digit string. -/
def natOfDigits (ds : List Char) : Nat :=
  ds.foldl (fun a c => a * 10 + digitVal c) 0

/-- After the day: the optional comma, mandatory whitespace, and the
four-digit year of the long-form pattern. -/
def afterDay (m d : Nat) (r : List Char) : Option (Nat × Nat × Nat) :=
  let r1 := match r with | ',' :: t => t | _ => r
  match r1 with
  | c :: t =>
    if isPySpace c then
      match takeDigits 4 ((c :: t).dropWhile isPySpace) with
      | some (ds, _) => some (m, d, natOfDigits ds)
      | none => none
    else none
  | [] => none

/-- Day of the long-form pattern: one or two digits, greedy (two digits
first, falling back to one, as the regex engine backtracks). -/
def dayYear (m : Nat) (r : List Char) : Option (Nat × Nat × Nat) :=
  match r with
  | c1 :: c2 :: t =>
    if c1.isDigit then
      if c2.isDigit then
        match afterDay m (digitVal c1 * 10 + digitVal c2) t with
        | some res => some res
        | none => afterDay m (digitVal c1) (c2 :: t)
      else afterDay m (digitVal c1) (c2 :: t)
    else none
  | [c1] => if c1.isDigit then afterDay m (digitVal c1) [] else none
  | [] => none

/-- Whitespace after the month name, then day and year. -/
def monthRest (m : Nat) (r : List Char) : Option (Nat × Nat × Nat) :=
  match r with
  | c :: t => if isPySpace c then dayYear m ((c :: t).dropWhile isPySpace) else none
  | [] => none

/-- Long-form month pattern anchored at the start of the list. -/
def matchMonthAt (l : List Char) : Option (Nat × Nat × Nat) :=
  monthTable.findSome? (fun p =>
    if ciStarts p.1.data l then monthRest p.2 (l.drop p.1.data.length) else none)

/-- re.search for the long-form month pattern: earliest position wins,
months tried in alternation order at each position. -/
def monthSearch : List Char → Option (Nat × Nat × Nat)
  | [] => none
  | c :: t =>
    match matchMonthAt (c :: t) with
    | some m => some m
    | none => monthSearch t

/-! ### Calendar rendering (strftime with %Y-%m-%d) and validation
(strptime with %B %d %Y followed by the datetime constructor) -/

/-- Gregorian leap year. -/
def isLeap (y : Nat) : Bool := (y % 4 == 0 && y % 100 != 0) || y % 400 == 0

/-- Days in a month of the proleptic Gregorian calendar. -/
def daysInMonth (m y : Nat) : Nat :=
  if m = 2 then (if isLeap y then 29 else 28)
  else if m = 4 ∨ m = 6 ∨ m = 9 ∨ m = 11 then 30 else 31

/-- Decimal digit character. -/
def digitChar (n : Nat) : Char := Char.ofNat (48 + n)

/-- Fuel-driven digit accumulation, structurally recursive so that the
kernel can evaluate it. -/
def natDigitsAux : Nat → Nat → List Char
  | 0, _ => []
  | _ + 1, 0 => []
  | fuel + 1, n + 1 =>
    natDigitsAux fuel ((n + 1) / 10) ++ [digitChar ((n + 1) % 10)]

/-- Decimal digits of a positive number (empty on zero; callers pad).
The number itself is always enough fuel. -/
def natDigits (n : Nat) : List Char := natDigitsAux n n

/-- Zero-padded decimal rendering of width w. -/
def padNat (w n : Nat) : List Char :=
  let ds := if n = 0 then ['0'] else natDigits n
  List.replicate (w - ds.length) '0' ++ ds

/-- strftime %Y-%m-%d from calendar components. -/
def fmtYMDparts (y m d : Nat) : String :=
  String.mk (padNat 4 y ++ '-' :: padNat 2 m ++ '-' :: padNat 2 d)

/-- Civil date from a day count since 1970-01-01 (standard era-based
conversion). -/
def civilFromDays (d : Nat) : Nat × Nat × Nat :=
  let z := d + 719468
  let era := z / 146097
  let doe := z % 146097
  let yoe := (doe - doe / 1460 + doe / 36524 - doe / 146096) / 365
  let y := yoe + era * 400
  let doy := doe - (365 * yoe + yoe / 4 - yoe / 100)
  let mp := (5 * doy + 2) / 153
  let day := doy - (153 * mp + 2) / 5 + 1
  let m := if mp < 10 then mp + 3 else mp - 9
  (if m ≤ 2 then y + 1 else y, m, day)

/-- strftime %Y-%m-%d on a Unix timestamp in seconds.  The model covers
timestamps at or after the epoch, the only ones a run of the program can
produce from datetime.now(). -/
def fmtYMD (ts : Int) : String :=
  if ts < 0 then ""
  else
    let c := civilFromDays (ts.toNat / 86400)
    fmtYMDparts c.1 c.2.1 c.2.2

/-- NewsAggregator._extract_date_from_text.  The strptime call on the
matched long-form span succeeds exactly when the components form a valid
datetime (year at least 1, day within the month); on failure the except
clause swallows the error and the function returns None. -/
def extract_date (text : String) : Option String :=
  if text = "" then none
  else
    match isoSearch text.data with
    | some m => some (String.mk m)
    | none =>
      match monthSearch text.data with
      | some (m, d, y) =>
        if 1 ≤ y ∧ 1 ≤ d ∧ d ≤ daysInMonth m y
        then some (fmtYMDparts y m d) else none
      | none => none

/-! ### Module configuration constants -/

def MAX_ARTICLES_PER_SOURCE : Nat := 10
def DAYS_LOOKBACK : Nat := 45
def FETCH_FULL_CONTENT : Bool := true

/-! ### The full-content fetcher (_fetch_full_article_content) -/

/-- Python or on optional values: the left operand if it is truthy, else
the right operand (find results are None or a tag, and tags are truthy). -/
def pyOr {α : Type} : Option α → Option α → Option α
  | some x, _ => some x
  | none, b => b

/-- A BeautifulSoup tag, reduced to the text the code extracts from it
with get_text(separator=' ', strip=True). -/
structure Node where
  text : String
deriving Repr, DecidableEq

/-- The results of the five structural queries the fetcher runs against
the parsed page after decomposing script, style, nav, header, footer,
aside and iframe elements: find of an article element, of a main element,
of a div whose id matches content or main, of a div whose class matches
content, article, post or body, and of the body element.  BeautifulSoup
is an external collaborator, so the parsed document is modelled by these
query results. -/
structure Soup where
  articleTag : Option Node
  mainTag : Option Node
  contentIdDiv : Option Node
  contentClassDiv : Option Node
  bodyTag : Option Node
deriving Repr, DecidableEq

/-- Line 498 and 500 of the source: the assignment builds the pair
(find article or find main or find div-by-id, find div-by-class or find
body) because of the stray comma, and the isinstance branch then takes
pair.1 or pair.2. -/
def selectContent (s : Soup) : Option Node :=
  let content := (pyOr (pyOr s.articleTag s.mainTag) s.contentIdDiv,
                  pyOr s.contentClassDiv s.bodyTag)
  pyOr content.1 content.2

/-- url.split(sep)[0] with sep a question mark: the prefix before the
first question mark. -/
def stripQuery (url : String) : String :=
  String.mk (url.data.takeWhile (fun c => c != '?'))

/-- The whitespace collapse applied to the extracted text:
join(text.split()) with single spaces. -/
def collapseWS (s : String) : String := String.mk (joinWords (splitWords s.data))

/-- Match, at the start of the list, of the boilerplate pattern the
fetcher removes: the literal Page details, whitespace, then an ISO date
(the trailing dot-star of the regex consumes the rest of the string). -/
def pdMatchAt (l : List Char) : Bool :=
  if ("Page details").data.isPrefixOf l then
    match l.drop 12 with
    | c :: t => isPySpace c && (matchIsoAt ((c :: t).dropWhile isPySpace)).isSome
    | [] => false
  else false

/-- re.sub of the boilerplate pattern with the empty string: the text is
truncated at the first occurrence (the pattern consumes everything after
it). -/
def pdAux : List Char → List Char
  | [] => []
  | c :: t => if pdMatchAt (c :: t) then [] else c :: pdAux t

/-- Removal of the trailing page-metadata boilerplate. -/
def stripPageDetails (s : String) : String := String.mk (pdAux s.data)

/-- Python s[:n] on strings. -/
def pyTake (n : Nat) (s : String) : String := String.mk (s.data.take n)

/-- NewsAggregator._fetch_full_article_content.  net models the composite
of the HTTP GET, the status check and the BeautifulSoup parse: none is any
transport error, bad status or exception (all caught by the bare except,
which returns the empty string), some is the parsed page. -/
def fetch_full_article_content (fetchFullContent : Bool) (url : String)
    (net : String → Option Soup) : String :=
  if fetchFullContent = false ∨ startswith url "http" = false then ""
  else
    match net (stripQuery url) with
    | none => ""
    | some soup =>
      match selectContent soup with
      | some node => pyTake 5000 (stripPageDetails (collapseWS node.text))
      | none => ""

/-! ### The article record and the Article Builder (_create_article) -/

structure Article where
  title : String
  url : String
  date : String
  content : String
  source : String
  category : String
  extraction_method : String
deriving Repr, DecidableEq

/-- Python truthiness of an optional string: None and the empty string
are falsy. -/
def strOptTruthy : Option String → Bool
  | none => false
  | some s => if s = "" then false else true

/-- NewsAggregator._create_article.  date_str is the optional hint date;
net is the network collaborator of the fetcher; now is the timestamp
datetime.now() returns if the fallback-date call is reached. -/
def create_article (title url source_name category snippet : String)
    (date_str : Option String) (net : String → Option Soup) (now : Int) :
    Option Article :=
  if url = "" ∨ hasAnySkip createSkips url = true then none
  else
    let full_content := fetch_full_article_content FETCH_FULL_CONTENT url net
    let d1 : Option String :=
      if strOptTruthy date_str then date_str
      else
        match extract_date full_content with
        | some d => some d
        | none => extract_date snippet
    let date2 : String := if strOptTruthy d1 then d1.getD "" else fmtYMD now
    if title = "" ∨ title.length < 10 then none
    else some
      { title := title, url := url, date := date2,
        content := if full_content = "" then snippet else full_content,
        source := source_name, category := category,
        extraction_method := "scrape" }

/-! ### The feed strategy (fetch_rss_feed and _parse_date) -/

/-- A feedparser entry, reduced to the fields the code reads.  The two
struct_time fields are modelled as Unix timestamps: datetime applied to
the first six components of a struct_time denotes the same instant the
timestamp does.  A missing or falsy attribute or key is none. -/
structure FeedEntry where
  published_parsed : Option Int
  updated_parsed : Option Int
  link : Option String
  title : Option String
  summary : Option String
  description : Option String
deriving Repr, DecidableEq

/-- NewsAggregator._parse_date: the loop over the field names
published_parsed then updated_parsed, returning the first present and
truthy one as a datetime. -/
def parse_date (e : FeedEntry) : Option Int :=
  match e.published_parsed with
  | some ts => some ts
  | none =>
    match e.updated_parsed with
    | some ts => some ts
    | none => none

/-- The body of the per-entry loop of fetch_rss_feed.  clock gives the
value of the k-th datetime.now() call of the run (call 0 computed the
cutoff; a fallback-date call advances the index).  The second component
of the result records, in order, the URLs for which a full-content fetch
was attempted, so that statements about work skipped by the recency
filter are expressible. -/
def rssLoop (source_name category : String) (net : String → Option Soup)
    (clock : Nat → Int) (cutoff : Int) :
    List FeedEntry → Nat → List Article × List String
  | [], _ => ([], [])
  | e :: rest, k =>
    let pub := parse_date e
    if (match pub with | some d => decide (d < cutoff) | none => false) then
      rssLoop source_name category net clock cutoff rest k
    else
      let url := validate_url ((e.link).getD "") source_name
      if url = "" then rssLoop source_name category net clock cutoff rest k
      else
        let full_content := fetch_full_article_content FETCH_FULL_CONTENT url net
        let content :=
          if full_content = "" then
            clean_html ((e.summary).getD ((e.description).getD ""))
          else full_content
        let dk : String × Nat :=
          match pub with
          | some d => (fmtYMD d, k)
          | none => (fmtYMD (clock k), k + 1)
        let a : Article :=
          { title := clean_text ((e.title).getD "No title"), url := url,
            date := dk.1, content := content, source := source_name,
            category := category, extraction_method := "rss" }
        let r := rssLoop source_name category net clock cutoff rest dk.2
        (a :: r.1, url :: r.2)

/-- NewsAggregator.fetch_rss_feed: the cutoff is datetime.now() minus the
lookback (now-call 0), and the loop runs over the first
MAX_ARTICLES_PER_SOURCE entries with now-call index starting at 1. -/
def fetch_rss_feed (entries : List FeedEntry) (source_name category : String)
    (net : String → Option Soup) (clock : Nat → Int) :
    List Article × List String :=
  let cutoff := clock 0 - (DAYS_LOOKBACK : Int) * 86400
  rssLoop source_name category net clock cutoff
    (entries.take MAX_ARTICLES_PER_SOURCE) 1

/-! ### Concrete instances used by the example and counterexample
theorems -/

/-- A network on which every fetch fails (or every page is unreachable):
the fetcher degrades to the empty string. -/
def netNone : String → Option Soup := fun _ => none

/-- A fixed run instant: 2025-08-24 early morning UTC. -/
def baseNow : Int := 1756000000

/-- A constant clock: every datetime.now() call of the run returns the
same instant. -/
def clkConst : Nat → Int := fun _ => baseNow

/-- A feed entry published 90 days before baseNow. -/
def entry90 : FeedEntry :=
  { published_parsed := some (baseNow - 90 * 86400), updated_parsed := none,
    link := some "https://example.com/old", title := some "An Old Entry Headline",
    summary := some "old summary", description := none }

/-- A feed entry published 10 days before baseNow. -/
def entry10 : FeedEntry :=
  { published_parsed := some (baseNow - 10 * 86400), updated_parsed := none,
    link := some "https://example.com/fresh", title := some "A Fresh Entry Headline",
    summary := some "fresh summary", description := none }

/-- A feed summary 5001 characters long (no markup, no whitespace). -/
def longSummary : String := String.mk (List.replicate 5001 'x')

/-- A fresh feed entry whose summary is longSummary. -/
def entryLong : FeedEntry :=
  { published_parsed := some (baseNow - 10 * 86400), updated_parsed := none,
    link := some "https://example.com/long", title := some "A Long Summary Headline",
    summary := some longSummary, description := none }

/-- A clock advancing one second per now() call, positioned so that the
day boundary 2025-03-17 to 2025-03-18 falls between call 1 and call 2. -/
def skewClock : Nat → Int := fun k => 1742255998 + (k : Int)

/-- A feed entry carrying no structured date at all. -/
def dateless1 : FeedEntry :=
  { published_parsed := none, updated_parsed := none,
    link := some "https://example.com/p1", title := some "First Dateless Headline",
    summary := some "alpha", description := none }

/-- A second feed entry carrying no structured date. -/
def dateless2 : FeedEntry :=
  { published_parsed := none, updated_parsed := none,
    link := some "https://example.com/p2", title := some "Second Dateless Headline",
    summary := some "beta", description := none }

/-! ### Lemmas on the whitespace splitter and joiner -/

theorem dropWhile_eq_self_of_all (l : List Char)
    (h : ∀ c ∈ l, isPySpace c = false) : l.dropWhile isPySpace = l := by
  cases l with
  | nil => rfl
  | cons c t => simp [List.dropWhile, h c (by simp)]

theorem splitWordsAux_mem :
    ∀ (l acc : List Char), (∀ c ∈ acc, isPySpace c = false) →
      ∀ w ∈ splitWordsAux l acc, w ≠ [] ∧ ∀ c ∈ w, isPySpace c = false := by
  intro l
  induction l with
  | nil =>
    intro acc hacc w hw
    by_cases h : acc = []
    · simp [splitWordsAux, h] at hw
    · simp [splitWordsAux, h] at hw
      subst hw
      refine ⟨by simpa using h, ?_⟩
      intro c hc
      exact hacc c (by simpa using hc)
  | cons c cs ih =>
    intro acc hacc w hw
    by_cases hc : isPySpace c = true
    · by_cases h : acc = []
      · simp [splitWordsAux, hc, h] at hw
        exact ih [] (by simp) w hw
      · simp [splitWordsAux, hc, h] at hw
        rcases hw with hw | hw
        · subst hw
          refine ⟨by simpa using h, ?_⟩
          intro x hx
          exact hacc x (by simpa using hx)
        · exact ih [] (by simp) w hw
    · have hc2 : isPySpace c = false := by simpa using hc
      simp [splitWordsAux, hc2] at hw
      refine ih (c :: acc) ?_ w hw
      intro x hx
      rcases List.mem_cons.mp hx with hx | hx
      · subst hx; exact hc2
      · exact hacc x hx

theorem splitWordsAux_word (w : List Char) :
    ∀ (rest acc : List Char), (∀ c ∈ w, isPySpace c = false) →
      splitWordsAux (w ++ rest) acc = splitWordsAux rest (w.reverse ++ acc) := by
  induction w with
  | nil => intro rest acc _; simp
  | cons c w2 ih =>
    intro rest acc hw
    have hc : isPySpace c = false := hw c (by simp)
    have ih2 := ih rest (c :: acc) (fun x hx => hw x (by simp [hx]))
    simp [splitWordsAux, hc, ih2, List.append_assoc]

theorem joinWords_cons (w : List Char) (ws : List (List Char)) :
    joinWords (w :: ws) =
      w ++ (match ws with | [] => [] | _ :: _ => ' ' :: joinWords ws) := by
  cases ws <;> simp [joinWords]

theorem splitWords_join :
    ∀ ws : List (List Char),
      (∀ w ∈ ws, w ≠ [] ∧ ∀ c ∈ w, isPySpace c = false) →
      splitWords (joinWords ws) = ws := by
  intro ws
  induction ws with
  | nil => intro _; rfl
  | cons w ws ih =>
    intro hws
    obtain ⟨hne, hsp⟩ := hws w (by simp)
    cases ws with
    | nil =>
      have h1 : joinWords [w] = w ++ [] := by simp [joinWords]
      unfold splitWords
      rw [h1, splitWordsAux_word w [] [] hsp]
      simp [splitWordsAux, hne]
    | cons w2 ws2 =>
      unfold splitWords
      rw [joinWords_cons, splitWordsAux_word w _ [] hsp]
      have ih2 := ih (fun v hv => hws v (by simp [hv]))
      unfold splitWords at ih2
      have hsp1 : isPySpace ' ' = true := rfl
      simp [splitWordsAux, hsp1, hne, ih2]

theorem joinWords_reverse_head :
    ∀ (w0 : List Char) (ws : List (List Char)),
      (∀ w ∈ w0 :: ws, w ≠ [] ∧ ∀ c ∈ w, isPySpace c = false) →
      ∃ c t, (joinWords (w0 :: ws)).reverse = c :: t ∧ isPySpace c = false := by
  intro w0 ws
  induction ws generalizing w0 with
  | nil =>
    intro hws
    obtain ⟨hne, hsp⟩ := hws w0 (by simp)
    cases h : w0.reverse with
    | nil => exact absurd (by simpa using h) hne
    | cons c t =>
      refine ⟨c, t, by simp [joinWords, h], ?_⟩
      have : c ∈ w0.reverse := by simp [h]
      exact hsp c (by simpa using this)
  | cons w2 ws ih =>
    intro hws
    obtain ⟨c, t, hct, hc⟩ := ih w2 (fun v hv => hws v (by simp at hv ⊢; tauto))
    refine ⟨c, t ++ ' ' :: w0.reverse, ?_, hc⟩
    rw [joinWords_cons]
    simp only [List.reverse_append, List.reverse_cons]
    rw [hct]
    simp

theorem pyStrip_joinWords (ws : List (List Char))
    (hws : ∀ w ∈ ws, w ≠ [] ∧ ∀ c ∈ w, isPySpace c = false) :
    pyStripChars (joinWords ws) = joinWords ws := by
  cases ws with
  | nil => rfl
  | cons w0 ws =>
    obtain ⟨hne, hsp⟩ := hws w0 (by simp)
    unfold pyStripChars
    have hfront : (joinWords (w0 :: ws)).dropWhile isPySpace = joinWords (w0 :: ws) := by
      rw [joinWords_cons]
      cases w0 with
      | nil => exact absurd rfl hne
      | cons c w1 =>
        have hc : isPySpace c = false := hsp c (by simp)
        simp [List.dropWhile, hc]
    rw [hfront]
    obtain ⟨c, t, hct, hc⟩ := joinWords_reverse_head w0 ws hws
    rw [hct, List.dropWhile, hc]
    simp [← hct]

/-- C8: for every string t, clean_text (clean_text t) = clean_text t.
The function collapses whitespace runs to single spaces and trims the
ends, and applying it twice changes nothing. -/
theorem clean_text_idempotent (t : String) :
    clean_text (clean_text t) = clean_text t := by
  by_cases h0 : t = ""
  · subst h0; rfl
  · have hws : ∀ w ∈ splitWords t.data, w ≠ [] ∧ ∀ c ∈ w, isPySpace c = false :=
      splitWordsAux_mem t.data [] (by simp)
    have hstrip : pyStripChars (joinWords (splitWords t.data)) =
        joinWords (splitWords t.data) := pyStrip_joinWords _ hws
    have hct : clean_text t = String.mk (joinWords (splitWords t.data)) := by
      rw [clean_text, if_neg h0, hstrip]
    by_cases hj : joinWords (splitWords t.data) = []
    · rw [hct, hj]
      rfl
    · have hne : String.mk (joinWords (splitWords t.data)) ≠ "" := by
        intro hcon
        exact hj (by simpa using congrArg String.data hcon)
      rw [hct, clean_text, if_neg hne]
      show String.mk (pyStripChars (joinWords (splitWords (joinWords (splitWords t.data))))) = _
      rw [splitWords_join _ hws, hstrip]

/-! ### String plumbing lemmas -/

theorem strData_append (u v : String) : (u ++ v).data = u.data ++ v.data := rfl

theorem mk_data (s : String) : String.mk s.data = s := rfl

/-- A fixed page used by witness theorems: only the class-matched div is
present. -/
def soupClassOnly : Soup :=
  { articleTag := none, mainTag := none, contentIdDiv := none,
    contentClassDiv := some { text := "Main body text" }, bodyTag := none }

/-- C7: for every fetched document the main-content region is selected by
the fixed priority order article container, then main container, then div
with content or main id, then div with content, article, post or body
class, then the document body, the first one present winning (even though
the source builds an accidental pair, the pair projection recovers exactly
this order); and in the fetcher the text extracted is the selected
region's. -/
theorem select_content_priority :
    (∀ s : Soup, selectContent s =
      pyOr (pyOr (pyOr (pyOr s.articleTag s.mainTag) s.contentIdDiv)
        s.contentClassDiv) s.bodyTag) ∧
    (∀ (url : String) (net : String → Option Soup) (soup : Soup) (node : Node),
      startswith url "http" = true → net (stripQuery url) = some soup →
      selectContent soup = some node →
      fetch_full_article_content true url net =
        pyTake 5000 (stripPageDetails (collapseWS node.text))) := by
  constructor
  · intro s
    cases h1 : s.articleTag <;> cases h2 : s.mainTag <;> cases h3 : s.contentIdDiv <;>
      cases h4 : s.contentClassDiv <;> cases h5 : s.bodyTag <;>
        simp [selectContent, pyOr, h1, h2, h3, h4, h5]
  · intro url net soup node hs hnet hsel
    rw [fetch_full_article_content, if_neg (by simp [hs]), hnet]
    show (match selectContent soup with
          | some node => pyTake 5000 (stripPageDetails (collapseWS node.text))
          | none => "") = _
    rw [hsel]

/-- Witness for the C7 theorem at a concrete page where only the
class-matched div exists. -/
theorem select_content_priority_wit :
    fetch_full_article_content true "https://a.com/p" (fun _ => some soupClassOnly) =
      pyTake 5000 (stripPageDetails (collapseWS "Main body text")) :=
  select_content_priority.2 "https://a.com/p" (fun _ => some soupClassOnly)
    soupClassOnly { text := "Main body text" } (by decide) rfl rfl

/-- C2 counterexample: a URL that contains the substring whatsapp: but no
other excluded scheme passes _validate_url and _fix_relative_url
unchanged, because their skip lists lack whatsapp (source lines 452 and
458). -/
theorem whatsapp_not_excluded_cex :
    strContains (pyLower "https://example.com/whatsapp:share") "whatsapp:" = true ∧
    validate_url "https://example.com/whatsapp:share" "AnySource" =
      "https://example.com/whatsapp:share" ∧
    fix_relative_url "https://example.com/whatsapp:share" "https://example.com/" =
      "https://example.com/whatsapp:share" := ⟨by decide, by decide, by decide⟩

/-- C2 amended: for every url containing mailto:, tel:, or javascript:
(any letter case), _validate_url returns the empty string and
_fix_relative_url returns the empty string for any base; whatsapp: is not
excluded by these two functions (only the Article Builder excludes it). -/
theorem validate_fix_excluded (url base source_name : String)
    (h : hasAnySkip validateSkips url = true) :
    validate_url url source_name = "" ∧ fix_relative_url url base = "" := by
  constructor
  · rw [validate_url, if_pos (Or.inr (Or.inr h))]
  · by_cases h0 : url = ""
    · rw [fix_relative_url, if_pos h0]
    · rw [fix_relative_url, if_neg h0, if_pos h]

/-- Witness for the C2 amended theorem at a concrete upper-case url. -/
theorem validate_fix_excluded_wit :
    validate_url "MAILTO:bob" "S" = "" ∧
    fix_relative_url "MAILTO:bob" "https://b.com/" = "" :=
  validate_fix_excluded "MAILTO:bob" "https://b.com/" "S" (by decide)

/-- C4: date extraction tries the ISO pattern first anywhere in the text
and returns the match verbatim; otherwise the first long-form month date
is parsed and reformatted with parse failures swallowed (the February 30
conjunct); otherwise nothing.  The function is a pure Lean function, so
determinism across calls holds by construction. -/
theorem extract_date_spec :
    extract_date "Published 2025-03-14" = some "2025-03-14" ∧
    extract_date "March 14, 2025" = some "2025-03-14" ∧
    extract_date "no date here" = none ∧
    extract_date "February 30, 2025" = none ∧
    (∀ t : String, extract_date t =
      match isoSearch t.data with
      | some m => some (String.mk m)
      | none =>
        match monthSearch t.data with
        | some (m, d, y) =>
          if 1 ≤ y ∧ 1 ≤ d ∧ d ≤ daysInMonth m y
          then some (fmtYMDparts y m d) else none
        | none => none) := by
  refine ⟨by decide, by decide, by decide, by decide, ?_⟩
  intro t
  by_cases h : t = ""
  · subst h; rfl
  · rw [extract_date, if_neg h]

/-! ### Lemmas for the query-stripping and guard behaviour of the
fetcher -/

theorem takeWhileQ :
    ∀ (l rest : List Char), (∀ c ∈ l, (c != '?') = true) →
      List.takeWhile (fun c => c != '?') (l ++ '?' :: rest) = l ∧
        List.takeWhile (fun c => c != '?') l = l := by
  intro l
  induction l with
  | nil => intro rest _; refine ⟨?_, rfl⟩; simp [List.takeWhile]
  | cons c t ih =>
    intro rest h
    have hc : (c != '?') = true := h c (by simp)
    obtain ⟨ih1, ih2⟩ := ih rest (fun x hx => h x (by simp [hx]))
    constructor
    · simp only [List.cons_append, List.takeWhile_cons, hc, if_true, ih1]
    · simp only [List.takeWhile_cons, hc, if_true, ih2]

theorem startswith_append (u v pre : String) (h : startswith u pre = true) :
    startswith (u ++ v) pre = true := by
  rw [startswith] at h ⊢
  rw [strData_append]
  rw [List.isPrefixOf_iff_prefix] at h ⊢
  exact h.trans (List.prefix_append u.data v.data)

/-- C6: the fetcher is a total function into strings and degrades to the
empty string when fetching is disabled, when the URL does not start with
http, and on any transport, status or parse failure (net returning none
models them all, matching the bare except); and the network is consulted
at the query-stripped URL, so a question-mark-suffixed URL behaves as its
base page. -/
theorem fetch_full_guards :
    (∀ (url : String) (net : String → Option Soup),
      fetch_full_article_content false url net = "") ∧
    (∀ (cfg : Bool) (url : String) (net : String → Option Soup),
      startswith url "http" = false → fetch_full_article_content cfg url net = "") ∧
    (∀ (cfg : Bool) (url : String) (net : String → Option Soup),
      net (stripQuery url) = none → fetch_full_article_content cfg url net = "") ∧
    (∀ (u q : String) (cfg : Bool) (net : String → Option Soup),
      startswith u "http" = true → u.data.all (fun c => c != '?') = true →
      fetch_full_article_content cfg (u ++ "?" ++ q) net =
        fetch_full_article_content cfg u net) := by
  refine ⟨?_, ?_, ?_, ?_⟩
  · intro url net
    rw [fetch_full_article_content, if_pos (Or.inl rfl)]
  · intro cfg url net h
    rw [fetch_full_article_content, if_pos (Or.inr h)]
  · intro cfg url net h
    rw [fetch_full_article_content]
    by_cases hg : cfg = false ∨ startswith url "http" = false
    · rw [if_pos hg]
    · rw [if_neg hg, h]
  · intro u q cfg net hs hall
    have hall2 : ∀ c ∈ u.data, (c != '?') = true := by
      intro c hc; exact (List.all_eq_true.mp hall) c hc
    have hq1 : stripQuery (u ++ "?" ++ q) = u := by
      rw [stripQuery]
      have hdata : (u ++ "?" ++ q).data = u.data ++ '?' :: q.data := by
        rw [strData_append, strData_append]
        simp
      rw [hdata, (takeWhileQ u.data q.data hall2).1, mk_data]
    have hq2 : stripQuery u = u := by
      rw [stripQuery, (takeWhileQ u.data [] hall2).2, mk_data]
    have hs2 : startswith (u ++ "?" ++ q) "http" = true :=
      startswith_append _ _ _ (startswith_append _ _ _ hs)
    rw [fetch_full_article_content, fetch_full_article_content, hq1, hq2, hs2, hs]

/-- Witness for the C6 theorem at concrete URLs and a failing network. -/
theorem fetch_full_guards_wit :
    fetch_full_article_content true "ftp://x" netNone = "" ∧
    fetch_full_article_content true "https://a.com/x" netNone = "" ∧
    fetch_full_article_content true ("https://a.com/p" ++ "?" ++ "x=1") netNone =
      fetch_full_article_content true "https://a.com/p" netNone :=
  ⟨fetch_full_guards.2.1 true "ftp://x" netNone (by decide),
   fetch_full_guards.2.2.1 true "https://a.com/x" netNone rfl,
   fetch_full_guards.2.2.2 "https://a.com/p" "x=1" true netNone (by decide) (by decide)⟩

/-! ### Extracted dates are never the empty string -/

theorem matchIsoAt_shape {l m : List Char} (h : matchIsoAt l = some m) :
    ∃ a b, m = a ++ '-' :: b := by
  unfold matchIsoAt at h
  repeat' split at h
  all_goals try exact Option.noConfusion h
  exact ⟨_, _, (Option.some.inj h).symm⟩

theorem isoSearch_shape :
    ∀ {l m : List Char}, isoSearch l = some m → ∃ a b, m = a ++ '-' :: b := by
  intro l
  induction l with
  | nil => intro m h; exact Option.noConfusion h
  | cons c t ih =>
    intro m h
    rw [isoSearch] at h
    cases hm : matchIsoAt (c :: t) with
    | some x => rw [hm] at h; exact (Option.some.inj h) ▸ matchIsoAt_shape hm
    | none => rw [hm] at h; exact ih h

theorem string_mk_eq_empty {l : List Char} (h : String.mk l = "") : l = [] :=
  congrArg String.data h

theorem fmtYMDparts_ne_empty (y m d : Nat) : fmtYMDparts y m d ≠ "" := by
  intro h
  rw [fmtYMDparts] at h
  have h2 := string_mk_eq_empty h
  simp at h2

theorem strOptTruthy_none : strOptTruthy none = false := rfl

theorem strOptTruthy_some_ne {s : String} (h : ¬ (s = "")) :
    strOptTruthy (some s) = true := by
  simp [strOptTruthy, h]

theorem extract_date_ne_empty {t s : String} (h : extract_date t = some s) :
    s ≠ "" := by
  rw [extract_date] at h
  by_cases h0 : t = ""
  · rw [if_pos h0] at h; exact Option.noConfusion h
  · rw [if_neg h0] at h
    cases hiso : isoSearch t.data with
    | some m =>
      rw [hiso] at h
      obtain rfl : String.mk m = s := Option.some.inj h
      obtain ⟨a, b, rfl⟩ := isoSearch_shape hiso
      intro hcon
      have h2 := string_mk_eq_empty hcon
      simp at h2
    | none =>
      rw [hiso] at h
      cases hm : monthSearch t.data with
      | some p =>
        obtain ⟨m, d, y⟩ := p
        rw [hm] at h
        have h2 : (if 1 ≤ y ∧ 1 ≤ d ∧ d ≤ daysInMonth m y
            then some (fmtYMDparts y m d) else none) = some s := h
        split at h2
        · obtain rfl : fmtYMDparts y m d = s := Option.some.inj h2
          exact fmtYMDparts_ne_empty y m d
        · exact Option.noConfusion h2
      | none => rw [hm] at h; exact Option.noConfusion h

/-- C1: the Article Builder rejects when the url is empty or contains an
excluded scheme, rejects when the title is shorter than 10 characters,
and otherwise emits an article whose date follows the priority order:
the hint date when supplied (truthy), else a date extracted from the
fetched full content, else a date extracted from the snippet, else the
current date. -/
theorem create_article_spec (title url source_name category snippet : String)
    (hint : Option String) (net : String → Option Soup) (now : Int) :
    create_article title url source_name category snippet hint net now =
      if url = "" ∨ hasAnySkip createSkips url = true then none
      else if title.length < 10 then none
      else
        some { title := title, url := url,
               date :=
                 if strOptTruthy hint then hint.getD ""
                 else
                   match extract_date
                       (fetch_full_article_content FETCH_FULL_CONTENT url net) with
                   | some d => d
                   | none =>
                     match extract_date snippet with
                     | some d => d
                     | none => fmtYMD now,
               content :=
                 if fetch_full_article_content FETCH_FULL_CONTENT url net = ""
                 then snippet
                 else fetch_full_article_content FETCH_FULL_CONTENT url net,
               source := source_name, category := category,
               extraction_method := "scrape" } := by
  simp only [create_article]
  by_cases h1 : url = "" ∨ hasAnySkip createSkips url = true
  · rw [if_pos h1, if_pos h1]
  · rw [if_neg h1, if_neg h1]
    have htitle : (title = "" ∨ title.length < 10) ↔ title.length < 10 := by
      constructor
      · rintro (rfl | h)
        · decide
        · exact h
      · exact Or.inr
    by_cases h2 : title.length < 10
    · rw [if_pos (htitle.mpr h2), if_pos h2]
    · rw [if_neg (fun hcon => h2 (htitle.mp hcon)), if_neg h2]
      by_cases hh : strOptTruthy hint = true
      · obtain ⟨s, rfl⟩ : ∃ s, hint = some s := by
          cases hint with
          | none => simp [strOptTruthy] at hh
          | some s => exact ⟨s, rfl⟩
        have hs : ¬ (s = "") := by
          intro hcon
          subst hcon
          simp [strOptTruthy] at hh
        simp [strOptTruthy_some_ne hs]
      · have hh2 : strOptTruthy hint = false := by simpa using hh
        cases hfull : extract_date
            (fetch_full_article_content FETCH_FULL_CONTENT url net) with
        | some d =>
          have hd := strOptTruthy_some_ne (extract_date_ne_empty hfull)
          simp [hh2, hfull, hd]
        | none =>
          cases hsnip : extract_date snippet with
          | some d =>
            have hd := strOptTruthy_some_ne (extract_date_ne_empty hsnip)
            simp [hh2, hfull, hsnip, hd]
          | none => simp [hh2, hfull, hsnip, strOptTruthy_none]

/-! ### Content selection and the 5000-character bound -/

theorem fetch_full_length (cfg : Bool) (url : String)
    (net : String → Option Soup) :
    (fetch_full_article_content cfg url net).length ≤ 5000 := by
  rw [fetch_full_article_content]
  split
  · decide
  · cases hnet : net (stripQuery url) with
    | none => decide
    | some soup =>
      show (match selectContent soup with
            | some node => pyTake 5000 (stripPageDetails (collapseWS node.text))
            | none => "").length ≤ 5000
      cases hsel : selectContent soup with
      | none => decide
      | some node =>
        show (pyTake 5000 (stripPageDetails (collapseWS node.text))).length ≤ 5000
        rw [pyTake]
        show (List.take 5000 (stripPageDetails (collapseWS node.text)).data).length ≤ 5000
        rw [List.length_take]
        exact min_le_left _ _

theorem rssLoop_content (sn cat : String) (net : String → Option Soup)
    (clock : Nat → Int) (cutoff : Int) :
    ∀ (l : List FeedEntry) (k : Nat) (a : Article),
      a ∈ (rssLoop sn cat net clock cutoff l k).1 →
      a.content.length ≤ 5000 ∨
        ∃ e ∈ l, a.content =
          clean_html ((e.summary).getD ((e.description).getD "")) := by
  intro l
  induction l with
  | nil => intro k a h; simp [rssLoop] at h
  | cons e rest ih =>
    intro k a h
    simp only [rssLoop] at h
    split at h
    · rcases ih k a h with h2 | ⟨e2, he2, h3⟩
      · exact Or.inl h2
      · exact Or.inr ⟨e2, by simp [he2], h3⟩
    · split at h
      · rcases ih k a h with h2 | ⟨e2, he2, h3⟩
        · exact Or.inl h2
        · exact Or.inr ⟨e2, by simp [he2], h3⟩
      · rcases List.mem_cons.mp h with h2 | h2
        · subst h2
          by_cases hfull : fetch_full_article_content FETCH_FULL_CONTENT
              (validate_url ((e.link).getD "") sn) net = ""
          · refine Or.inr ⟨e, by simp, ?_⟩
            simp [hfull]
          · refine Or.inl ?_
            show (if fetch_full_article_content FETCH_FULL_CONTENT
                  (validate_url ((e.link).getD "") sn) net = "" then
                clean_html ((e.summary).getD ((e.description).getD ""))
              else fetch_full_article_content FETCH_FULL_CONTENT
                  (validate_url ((e.link).getD "") sn) net).length ≤ 5000
            rw [if_neg hfull]
            exact fetch_full_length _ _ _
        · rcases ih _ a h2 with h3 | ⟨e2, he2, h4⟩
          · exact Or.inl h3
          · exact Or.inr ⟨e2, by simp [he2], h4⟩

/-- C3 amended: every emitted content is the fetched full body when the
fetch yields non-empty text, else the listing snippet (for feed entries
the cleaned summary or description); the fetched body is always at most
5000 characters, so the bound holds whenever the fetch succeeds, but the
snippet fallback is not truncated. -/
theorem content_selection_spec :
    (∀ (cfg : Bool) (url : String) (net : String → Option Soup),
      (fetch_full_article_content cfg url net).length ≤ 5000) ∧
    (∀ (title url source_name category snippet : String) (hint : Option String)
       (net : String → Option Soup) (now : Int) (a : Article),
      create_article title url source_name category snippet hint net now = some a →
      a.content =
        if fetch_full_article_content FETCH_FULL_CONTENT url net = ""
        then snippet else fetch_full_article_content FETCH_FULL_CONTENT url net) ∧
    (∀ (entries : List FeedEntry) (sn cat : String) (net : String → Option Soup)
       (clock : Nat → Int) (a : Article),
      a ∈ (fetch_rss_feed entries sn cat net clock).1 →
      a.content.length ≤ 5000 ∨
        ∃ e ∈ entries, a.content =
          clean_html ((e.summary).getD ((e.description).getD ""))) := by
  refine ⟨fetch_full_length, ?_, ?_⟩
  · intro title url source_name category snippet hint net now a h
    simp only [create_article] at h
    split at h
    · exact Option.noConfusion h
    · split at h
      · exact Option.noConfusion h
      · obtain rfl : _ = a := Option.some.inj h
        rfl
  · intro entries sn cat net clock a h
    rw [fetch_rss_feed] at h
    rcases rssLoop_content sn cat net clock _ _ _ a h with h2 | ⟨e, he, h3⟩
    · exact Or.inl h2
    · exact Or.inr ⟨e, List.mem_of_mem_take he, h3⟩

/-- Witness for the C3 amended theorem: a concrete build whose fetch
fails falls back to the snippet. -/
theorem content_selection_spec_wit :
    ({ title := "A Valid Long Title", url := "https://e.com/p",
       date := "2025-01-01", content := "snip", source := "S", category := "C",
       extraction_method := "scrape" } : Article).content =
      if fetch_full_article_content FETCH_FULL_CONTENT "https://e.com/p" netNone = ""
      then "snip"
      else fetch_full_article_content FETCH_FULL_CONTENT "https://e.com/p" netNone :=
  content_selection_spec.2.1 "A Valid Long Title" "https://e.com/p" "S" "C"
    "snip" (some "2025-01-01") netNone 0 _ (by decide)

theorem data_mk (l : List Char) : (String.mk l).data = l := rfl

theorem stripTagsAux_no_tag :
    ∀ l : List Char, (∀ c ∈ l, ¬ (c = '<')) → stripTagsAux l false = l := by
  intro l
  induction l with
  | nil => intro _; rfl
  | cons c t ih =>
    intro h
    rw [stripTagsAux, if_neg (h c (by simp))]
    rw [ih (fun x hx => h x (by simp [hx]))]

theorem clean_text_nospace {l : List Char} (hne : l ≠ [])
    (h : ∀ c ∈ l, isPySpace c = false) : clean_text (String.mk l) = String.mk l := by
  have hmk : ¬ (String.mk l = "") := fun hcon => hne (string_mk_eq_empty hcon)
  rw [clean_text, if_neg hmk]
  have hsplit : splitWords (String.mk l).data = [l] := by
    rw [data_mk]
    unfold splitWords
    have h2 : l ++ ([] : List Char) = l := by simp
    rw [← h2, splitWordsAux_word l [] [] h]
    simp [splitWordsAux, hne]
  rw [hsplit]
  have hjoin : joinWords [l] = l := by simp [joinWords]
  rw [pyStrip_joinWords [l] (by simpa using ⟨hne, h⟩), hjoin]

theorem clean_html_nospace {l : List Char} (hne : l ≠ [])
    (hs : ∀ c ∈ l, isPySpace c = false) (ht : ∀ c ∈ l, ¬ (c = '<')) :
    clean_html (String.mk l) = String.mk l := by
  have hmk : ¬ (String.mk l = "") := fun hcon => hne (string_mk_eq_empty hcon)
  rw [clean_html, if_neg hmk, data_mk, stripTagsAux_no_tag l ht]
  exact clean_text_nospace hne hs

/-- The emit step of the per-entry loop: an entry with a date at or after
the cutoff and a valid link contributes one article and one fetch
attempt. -/
theorem rssLoop_emit (sn cat : String) (net : String → Option Soup)
    (clock : Nat → Int) (cutoff : Int) (e : FeedEntry) (rest : List FeedEntry)
    (k : Nat) (d : Int) (hd : parse_date e = some d) (hlt : ¬ (d < cutoff))
    (u : String) (hu : validate_url ((e.link).getD "") sn = u)
    (hne : ¬ (u = "")) :
    rssLoop sn cat net clock cutoff (e :: rest) k =
      (({ title := clean_text ((e.title).getD "No title"), url := u,
          date := fmtYMD d,
          content :=
            if fetch_full_article_content FETCH_FULL_CONTENT u net = "" then
              clean_html ((e.summary).getD ((e.description).getD ""))
            else fetch_full_article_content FETCH_FULL_CONTENT u net,
          source := sn, category := cat, extraction_method := "rss" } : Article)
        :: (rssLoop sn cat net clock cutoff rest k).1,
       u :: (rssLoop sn cat net clock cutoff rest k).2) := by
  have hcond : (match parse_date e with
      | some x => decide (x < cutoff) | none => false) = false := by
    rw [hd]
    simpa using hlt
  rw [rssLoop]
  rw [if_neg (by simp [hcond])]
  rw [hu]
  rw [if_neg hne]
  simp only [hd]

/-- C3 counterexample: a fresh feed entry whose content fetch fails and
whose summary is 5001 characters long is emitted with a content of 5001
characters, so emitted content is not always at most 5000 characters. -/
theorem content_over_5000_cex :
    ((fetch_rss_feed [entryLong] "S" "C" netNone clkConst).1.map
      (fun a => a.content.length)) = [5001] ∧ ¬ (5001 ≤ 5000) := by
  constructor
  · have hclean : clean_html longSummary = longSummary := by
      rw [longSummary]
      have hrep : List.replicate 5001 'x' ≠ [] := by
        intro hcon
        have hlen0 := congrArg List.length hcon
        rw [List.length_replicate] at hlen0
        exact absurd hlen0 (by decide)
      refine clean_html_nospace hrep ?_ ?_
      · intro c hc
        rw [List.eq_of_mem_replicate hc]
        rfl
      · intro c hc
        rw [List.eq_of_mem_replicate hc]
        decide
    have hlen : longSummary.length = 5001 := by
      rw [longSummary]
      show (List.replicate 5001 'x').length = 5001
      rw [List.length_replicate]
    have hsum : (entryLong.summary).getD ((entryLong.description).getD "") =
        longSummary := rfl
    have hfull : fetch_full_article_content FETCH_FULL_CONTENT
        "https://example.com/long" netNone = "" := rfl
    show ((rssLoop "S" "C" netNone clkConst
        (clkConst 0 - (DAYS_LOOKBACK : Int) * 86400) [entryLong] 1).1.map
          (fun a => a.content.length)) = [5001]
    rw [rssLoop_emit "S" "C" netNone clkConst
        (clkConst 0 - (DAYS_LOOKBACK : Int) * 86400) entryLong [] 1
        (baseNow - 10 * 86400) rfl (by decide) "https://example.com/long" rfl
        (by decide)]
    simp only [rssLoop, hsum, hfull, List.map]
    simp [hclean, hlen]
  · decide

/-! ### Feed recency filtering -/

/-- C5: the publication date of an entry is taken from published_parsed
then updated_parsed in that order; an entry whose date precedes the
cutoff is skipped entirely, contributing neither an article nor a
full-content fetch; concretely, with a 45-day lookback a feed whose only
entry is 90 days old yields nothing (and fetches nothing), while a
10-day-old entry is included. -/
theorem rss_recency_spec :
    (∀ e : FeedEntry, parse_date e = pyOr e.published_parsed e.updated_parsed) ∧
    (∀ (sn cat : String) (net : String → Option Soup) (clock : Nat → Int)
       (cutoff : Int) (e : FeedEntry) (rest : List FeedEntry) (k : Nat) (d : Int),
      parse_date e = some d → d < cutoff →
      rssLoop sn cat net clock cutoff (e :: rest) k =
        rssLoop sn cat net clock cutoff rest k) ∧
    fetch_rss_feed [entry90] "S" "C" netNone clkConst = ([], []) ∧
    (fetch_rss_feed [entry10] "S" "C" netNone clkConst).1.length = 1 := by
  refine ⟨?_, ?_, by decide, by decide⟩
  · intro e
    cases h : e.published_parsed with
    | some ts => simp [parse_date, pyOr, h]
    | none =>
      cases h2 : e.updated_parsed with
      | some ts => simp [parse_date, pyOr, h, h2]
      | none => simp [parse_date, pyOr, h, h2]
  · intro sn cat net clock cutoff e rest k d hd hlt
    have hcond : (match parse_date e with
        | some d => decide (d < cutoff) | none => false) = true := by
      rw [hd]
      simpa using hlt
    rw [rssLoop, if_pos hcond]

/-- Witness for the C5 theorem: the skip equation applied to the 90-day
old entry at the concrete cutoff of the concrete run. -/
theorem rss_recency_spec_wit :
    rssLoop "S" "C" netNone clkConst (baseNow - (45 : Int) * 86400) [entry90] 1 =
      rssLoop "S" "C" netNone clkConst (baseNow - (45 : Int) * 86400) [] 1 :=
  rss_recency_spec.2.1 "S" "C" netNone clkConst (baseNow - (45 : Int) * 86400)
    entry90 [] 1 (baseNow - 90 * 86400) rfl (by decide)

/-- C9 (refuting the once-per-run clock): in one run over one feed with
two dateless entries, the code evaluates datetime.now() again for each
fallback date (and once more for the cutoff), so when the wall clock
crosses midnight between the two per-entry calls the two articles of the
same run carry different dates. -/
theorem now_skew_cex :
    ((fetch_rss_feed [dateless1, dateless2] "S" "C" netNone skewClock).1.map
      (fun a => a.date)) = ["2025-03-17", "2025-03-18"] ∧
    ¬ (("2025-03-17" : String) = "2025-03-18") :=
  ⟨by decide, by decide⟩

/-- C10: a feed entry with no parseable structured date is never skipped
by the recency filter, whatever the cutoff; if its link validates it is
processed normally and emitted with the date the current now() call
returns, which under a constant clock is the run date. -/
theorem no_date_entry_spec (sn cat : String) (net : String → Option Soup)
    (clock : Nat → Int) (now : Int) (hclock : ∀ i, clock i = now)
    (e : FeedEntry) (rest : List FeedEntry) (k : Nat) (cutoff : Int)
    (hd : parse_date e = none) (u : String)
    (hu : validate_url ((e.link).getD "") sn = u) (hne : ¬ (u = "")) :
    rssLoop sn cat net clock cutoff (e :: rest) k =
      (({ title := clean_text ((e.title).getD "No title"), url := u,
          date := fmtYMD now,
          content :=
            if fetch_full_article_content FETCH_FULL_CONTENT u net = "" then
              clean_html ((e.summary).getD ((e.description).getD ""))
            else fetch_full_article_content FETCH_FULL_CONTENT u net,
          source := sn, category := cat, extraction_method := "rss" } : Article)
        :: (rssLoop sn cat net clock cutoff rest (k + 1)).1,
       u :: (rssLoop sn cat net clock cutoff rest (k + 1)).2) := by
  have hcond : (match parse_date e with
      | some d => decide (d < cutoff) | none => false) = false := by
    rw [hd]
  rw [rssLoop]
  rw [if_neg (by simp [hcond])]
  rw [hu]
  rw [if_neg hne]
  simp only [hd, hclock k]

/-- Witness for the C10 theorem: a dateless entry passes even an
arbitrarily large cutoff and is dated with the run date. -/
theorem no_date_entry_spec_wit :
    rssLoop "S" "C" netNone (fun _ => baseNow) 99999999999 [dateless1] 1 =
      (({ title := clean_text ((dateless1.title).getD "No title"),
          url := "https://example.com/p1", date := fmtYMD baseNow,
          content :=
            if fetch_full_article_content FETCH_FULL_CONTENT
                "https://example.com/p1" netNone = "" then
              clean_html ((dateless1.summary).getD
                ((dateless1.description).getD ""))
            else fetch_full_article_content FETCH_FULL_CONTENT
                "https://example.com/p1" netNone,
          source := "S", category := "C", extraction_method := "rss" } : Article)
        :: (rssLoop "S" "C" netNone (fun _ => baseNow) 99999999999 [] 2).1,
       "https://example.com/p1" ::
         (rssLoop "S" "C" netNone (fun _ => baseNow) 99999999999 [] 2).2) :=
  no_date_entry_spec "S" "C" netNone (fun _ => baseNow) baseNow (fun _ => rfl)
    dateless1 [] 1 99999999999 rfl "https://example.com/p1" rfl (by decide)

end NewsAgg
